import Mathlib

/-!
Verification of the claude-mcp-rs subprocess orchestration core.

This file shallowly embeds the data model and operations of
`src/claude.rs` and `src/server.rs`: the line reader with a byte cap,
the streaming-JSON event classifier and aggregator, exit-status
reconciliation, the result validator, the timeout guard, and the
protocol-shell output construction.  Machine strings are modelled as
Lean `String`s with explicit UTF-8 byte-length accounting (Rust
`String::len` counts bytes); byte streams are `List Nat`; fallible
JSON access is `Option`.
-/

namespace ClaudeMcp

/-- Model of `serde_json::Value`: a parsed JSON document.  Numbers are
restricted to integers (the events this program inspects carry only
strings, booleans, objects and arrays; numeric fields are only ever
stored opaquely). -/
inductive Json where
  | null
  | bool (b : Bool)
  | num (n : Int)
  | str (s : String)
  | arr (elems : List Json)
  | obj (fields : List (String × Json))

/-- `Value::as_str`. -/
def Json.asStr : Json → Option String
  | .str s => some s
  | _ => none

/-- `Value::as_bool`. -/
def Json.asBool : Json → Option Bool
  | .bool b => some b
  | _ => none

/-- `Value::as_array`. -/
def Json.asArr : Json → Option (List Json)
  | .arr xs => some xs
  | _ => none

/-- `Value::as_object` / `serde_json::from_value::<HashMap<String, Value>>`:
succeeds exactly on JSON objects, yielding the key-value pairs. -/
def Json.asObj : Json → Option (List (String × Json))
  | .obj fs => some fs
  | _ => none

/-- `Value::get(key)`: field lookup on an object, `none` on any other
shape.  Parsed objects have distinct keys, so first-match lookup is
exact. -/
def Json.get (j : Json) (key : String) : Option Json :=
  match j with
  | .obj fs => fs.lookup key
  | _ => none

/-- UTF-8 encoded byte length of one character. -/
def utf8CharLen (c : Char) : Nat :=
  if c.toNat < 0x80 then 1
  else if c.toNat < 0x800 then 2
  else if c.toNat < 0x10000 then 3
  else 4

/-- Rust `String::len`: the UTF-8 byte length of a string. -/
def bytesLen (s : String) : Nat :=
  s.data.foldl (fun n c => n + utf8CharLen c) 0

/-- Byte length of one character as escaped by `serde_json` string
serialization: quote and backslash become two bytes, short-escaped
control characters two bytes, other control characters six bytes
(`\u00XX`), everything else its plain UTF-8 length. -/
def escCharLen (c : Char) : Nat :=
  if c = '"' ∨ c = '\\' then 2
  else if c.toNat < 0x20 then
    if c = '\x08' ∨ c = '\t' ∨ c = '\n' ∨ c = '\x0c' ∨ c = '\r' then 2 else 6
  else utf8CharLen c

/-- Byte length of the serialized content of a JSON string (between
the surrounding quotes). -/
def escLen (s : String) : Nat :=
  s.data.foldl (fun n c => n + escCharLen c) 0

/-- Byte length of the decimal rendering of an integer. -/
def intLen (n : Int) : Nat := (toString n).length

mutual
/-- Byte length of `serde_json::to_string` output for a value: this is
the `message_size` estimate used by the raw-event ceiling in
`run_internal`. -/
def serLen : Json → Nat
  | .null => 4
  | .bool b => if b then 4 else 5
  | .num n => intLen n
  | .str s => 2 + escLen s
  | .arr xs => 2 + (if xs.length ≤ 1 then 0 else xs.length - 1) + serLenList xs
  | .obj fs => 2 + (if fs.length ≤ 1 then 0 else fs.length - 1) + serLenFields fs

/-- Sum of serialized lengths of array elements. -/
def serLenList : List Json → Nat
  | [] => 0
  | x :: xs => serLen x + serLenList xs

/-- Sum of serialized lengths of object fields (quoted escaped key,
colon, value). -/
def serLenFields : List (String × Json) → Nat
  | [] => 0
  | (k, v) :: fs => 2 + escLen k + 1 + serLen v + serLenFields fs
end

/-! Constants from `src/claude.rs`. -/

/-- `DEFAULT_TIMEOUT_SECS`. -/
def DEFAULT_TIMEOUT_SECS : Nat := 600

/-- `MAX_TIMEOUT_SECS`. -/
def MAX_TIMEOUT_SECS : Nat := 3600

/-- `MAX_STDERR_SIZE` (1 MiB). -/
def MAX_STDERR_SIZE : Nat := 1024 * 1024

/-- `MAX_LINE_LENGTH` (1 MiB). -/
def MAX_LINE_LENGTH : Nat := 1024 * 1024

/-- `MAX_AGENT_MESSAGES_SIZE` (10 MiB). -/
def MAX_AGENT_MESSAGES_SIZE : Nat := 10 * 1024 * 1024

/-- `MAX_ALL_MESSAGES_SIZE` (50 MiB). -/
def MAX_ALL_MESSAGES_SIZE : Nat := 50 * 1024 * 1024

/-- `ClaudeResult`: the Execution Result accumulated by `run_internal`.
`all_messages` entries are the `HashMap<String, Value>` views of parsed
events. -/
structure ClaudeResult where
  success : Bool
  session_id : String
  agent_messages : String
  agent_messages_truncated : Bool
  all_messages : List (List (String × Json))
  all_messages_truncated : Bool
  error : Option String
  warnings : Option String

/-- The initial `ClaudeResult` built at the top of `run_internal`. -/
def initResult : ClaudeResult :=
  { success := true
    session_id := ""
    agent_messages := ""
    agent_messages_truncated := false
    all_messages := []
    all_messages_truncated := false
    error := none
    warnings := none }

/-- `ValidationMode` for `enforce_required_fields`. -/
inductive ValidationMode where
  | Full
  | Skip
deriving DecidableEq

/-- The assistant-text accumulation block that `run_internal` applies
(verbatim, twice: for `assistant` text blocks and for the `result`
text field): append `text` to `agent_messages` under the byte ceiling
`maxAgent`, inserting a newline separator between non-empty pieces,
and on overflow append the truncation marker once and set the
truncation flag. -/
def appendAgentText (maxAgent : Nat) (r : ClaudeResult) (text : String) : ClaudeResult :=
  let new_size := bytesLen r.agent_messages + bytesLen text
  if maxAgent < new_size then
    if r.agent_messages_truncated = false then
      { r with
        agent_messages :=
          r.agent_messages ++ "\n[... Agent messages truncated due to size limit ...]"
        agent_messages_truncated := true }
    else r
  else if r.agent_messages_truncated = false then
    { r with
      agent_messages :=
        (if r.agent_messages ≠ "" ∧ text ≠ "" then r.agent_messages ++ "\n"
         else r.agent_messages) ++ text }
  else r

/-- The `"assistant"` arm of the event classifier: walk
`message.content[*]`, and for each block of type `"text"` append its
`text` field to the accumulated assistant text. -/
def processBlocks (maxAgent : Nat) (r : ClaudeResult) (blocks : List Json) : ClaudeResult :=
  blocks.foldl
    (fun r block =>
      if (block.get "type").bind Json.asStr = some "text" then
        match (block.get "text").bind Json.asStr with
        | some text => appendAgentText maxAgent r text
        | none => r
      else r)
    r

/-- The `"result"` arm of the event classifier: append the `result`
string field (when present) to the assistant text, and if the event
carries `is_error: true`, mark the run unsuccessful and overwrite the
error with `"Claude error: <result text>"`. -/
def processResult (maxAgent : Nat) (r : ClaudeResult) (j : Json) : ClaudeResult :=
  let r :=
    match (j.get "result").bind Json.asStr with
    | some result_text => appendAgentText maxAgent r result_text
    | none => r
  if ((j.get "is_error").bind Json.asBool).getD false then
    let r := { r with success := false }
    match (j.get "result").bind Json.asStr with
    | some result_text => { r with error := some ("Claude error: " ++ result_text) }
    | none => r
  else r

/-- First statement of the stdout loop body on a parsed line:
collect the event into `all_messages` with bounds checking against
the `maxAll` byte ceiling (the size estimate is the serialized
length), setting the truncation flag once on the first drop. -/
def pjCollect (maxAll : Nat) (allSize : Nat) (r : ClaudeResult) (j : Json) :
    Nat × ClaudeResult :=
  match j.asObj with
  | some map =>
    let message_size := serLen (Json.obj map)
    if allSize + message_size ≤ maxAll then
      (allSize + message_size, { r with all_messages := r.all_messages ++ [map] })
    else if r.all_messages_truncated = false then
      (allSize, { r with all_messages_truncated := true })
    else (allSize, r)
  | none => (allSize, r)

/-- Second statement of the stdout loop body: extract `session_id`
from any event that includes it non-empty (last writer wins). -/
def pjSession (r : ClaudeResult) (j : Json) : ClaudeResult :=
  match (j.get "session_id").bind Json.asStr with
  | some sid => if sid ≠ "" then { r with session_id := sid } else r
  | none => r

/-- Third statement of the stdout loop body: dispatch on the event
`type` to the `assistant` / `result` arms. -/
def pjDispatch (maxAgent : Nat) (r : ClaudeResult) (j : Json) : ClaudeResult :=
  match (j.get "type").bind Json.asStr with
  | some t =>
    if t = "assistant" then
      match (j.get "message").bind Json.asObj with
      | some message =>
        match (message.lookup "content").bind Json.asArr with
        | some content => processBlocks maxAgent r content
        | none => r
      | none => r
    else if t = "result" then processResult maxAgent r j
    else r
  | none => r

/-- One successfully parsed stdout line, as handled by the body of the
stdout loop in `run_internal`: the three statements in sequence
(raw-event collection, session-id extraction, type dispatch).  Takes
and returns the running `all_messages_size` alongside the result. -/
def processJson (maxAll maxAgent : Nat) (allSize : Nat) (r : ClaudeResult) (j : Json) :
    Nat × ClaudeResult :=
  let s1 := pjCollect maxAll allSize r j
  (s1.1, pjDispatch maxAgent (pjSession s1.2 j) j)

/-- One record delivered by the stdout read loop, after
`read_line_with_limit` + UTF-8 conversion + trimming: a line that
parsed as JSON, a line that failed JSON parsing (carrying the line
text and the serde error rendering), a line reported truncated by
the reader, or a line that is empty after trimming. -/
inductive LineEvent where
  | ok (j : Json)
  | parseFail (line : String) (errMsg : String)
  | truncatedLine
  | emptyLine

/-- The mutable state of the stdout loop in `run_internal`: the
accumulating result, the `parse_error_seen` latch, the running
`all_messages_size` byte counter, and the number of `start_kill`
signals sent to the child so far. -/
structure LoopState where
  res : ClaudeResult
  parse_error_seen : Bool
  all_messages_size : Nat
  kills : Nat

/-- Loop state at entry of the stdout loop. -/
def initState : LoopState :=
  { res := initResult, parse_error_seen := false, all_messages_size := 0, kills := 0 }

/-- `record_parse_error`: mark the run unsuccessful and append the
parse diagnostic to any existing non-empty error (joined by a
newline). -/
def record_parse_error (r : ClaudeResult) (errMsg line : String) : ClaudeResult :=
  let parse_msg := "JSON parse error: " ++ errMsg ++ ". Line: " ++ line
  { r with
    success := false
    error :=
      match r.error with
      | some existing =>
        if existing ≠ "" then some (existing ++ "\n" ++ parse_msg) else some parse_msg
      | none => some parse_msg }

/-- The error message set when a stdout line overflows the per-line
byte cap. -/
def truncationErrorMsg : String :=
  "Output line exceeded " ++ toString MAX_LINE_LENGTH ++
    " byte limit and was truncated, cannot parse JSON."

/-- One iteration of the stdout loop of `run_internal` on one record:
an over-length line short-circuits to the truncation error (killing
the child the first time); empty lines are skipped; after a parse
error everything is drained without parsing; otherwise a parse
failure records a diagnostic and kills the child, and a parsed line
is classified by `processJson`. -/
def stepLine (maxAll maxAgent : Nat) (st : LoopState) (ev : LineEvent) : LoopState :=
  match ev with
  | .truncatedLine =>
    let res := { st.res with success := false, error := some truncationErrorMsg }
    if st.parse_error_seen = false then
      { st with res := res, parse_error_seen := true, kills := st.kills + 1 }
    else { st with res := res }
  | .emptyLine => st
  | .parseFail line errMsg =>
    if st.parse_error_seen then st
    else
      { st with
        res := record_parse_error st.res errMsg line
        parse_error_seen := true
        kills := st.kills + 1 }
  | .ok j =>
    if st.parse_error_seen then st
    else
      let out := processJson maxAll maxAgent st.all_messages_size st.res j
      { st with res := out.2, all_messages_size := out.1 }

/-- The whole stdout loop over a sequence of records. -/
def processLines (maxAll maxAgent : Nat) (evs : List LineEvent) : LoopState :=
  evs.foldl (stepLine maxAll maxAgent) initState

/-- Rust `format!("{:?}", status.code())` on the child's `Option<i32>`
exit code. -/
def fmtExitCode : Option Int → String
  | some n => "Some(" ++ toString n ++ ")"
  | none => "None"

/-- Exit-status reconciliation at the bottom of `run_internal`: a
non-zero exit forces failure and composes the error from the existing
error (or an exit-code message when none exists) plus drained stderr;
a zero exit with non-empty stderr attaches stderr as a warning. -/
def reconcile (statusSuccess : Bool) (exitCode : Option Int) (stderr_output : String)
    (r : ClaudeResult) : ClaudeResult :=
  if statusSuccess = false then
    let error_msg :=
      match r.error with
      | some err => err
      | none => "claude command failed with exit code: " ++ fmtExitCode exitCode
    if stderr_output ≠ "" then
      { r with success := false, error := some (error_msg ++ "\nStderr: " ++ stderr_output) }
    else { r with success := false, error := some error_msg }
  else if stderr_output ≠ "" then { r with warnings := some stderr_output }
  else r

/-- `push_warning`: append a warning line to the optional warnings
string, separating non-empty existing content with a newline. -/
def push_warning (existing : Option String) (warning : String) : Option String :=
  match existing with
  | some current => some ((if current ≠ "" then current ++ "\n" else current) ++ warning)
  | none => some warning

/-- The literal error set when no event carried a session id. -/
def sessionIdErrorMsg : String := "Failed to get SESSION_ID from the Claude session."

/-- The literal warning appended when no assistant text accumulated. -/
def noAgentMessagesWarning : String :=
  "No agent_messages returned; check Claude CLI output or enable richer logging if needed."

/-- `enforce_required_fields`: the Result Validator.  In `Skip` mode
the result passes through untouched.  In `Full` mode an empty session
id with no pre-existing error forces failure with a session-id error,
and (independently) empty assistant text appends a warning. -/
def enforce_required_fields (r : ClaudeResult) (mode : ValidationMode) : ClaudeResult :=
  if mode = ValidationMode.Skip then r
  else
    let r :=
      if r.session_id = "" ∧ r.error = none then
        { r with success := false, error := some sessionIdErrorMsg }
      else r
    if r.agent_messages = "" then
      { r with warnings := push_warning r.warnings noAgentMessagesWarning }
    else r

/-- `default_timeout_secs`: the configured timeout, from the
`timeout_secs` field of the loaded config: positive values up to the
hard maximum pass through, larger values are clamped to the maximum,
zero or missing values fall back to the default. -/
def default_timeout_secs (cfg_timeout_secs : Option Nat) : Nat :=
  match cfg_timeout_secs with
  | some t =>
    if 0 < t ∧ t ≤ MAX_TIMEOUT_SECS then t
    else if MAX_TIMEOUT_SECS < t then MAX_TIMEOUT_SECS
    else DEFAULT_TIMEOUT_SECS
  | none => DEFAULT_TIMEOUT_SECS

/-- The timeout duration `run` actually passes to `tokio::time::timeout`:
a caller-supplied `opts.timeout_secs` is used as given; when it is
unset, the configured default is substituted. -/
def effective_timeout_secs (opts_timeout_secs cfg_timeout_secs : Option Nat) : Nat :=
  match opts_timeout_secs with
  | some t => t
  | none => default_timeout_secs cfg_timeout_secs

/-- The synthetic result built in `run` when the deadline expires. -/
def timeoutResult (timeout_secs : Nat) : ClaudeResult :=
  { success := false
    session_id := ""
    agent_messages := ""
    agent_messages_truncated := false
    all_messages := []
    all_messages_truncated := false
    error := some ("Claude execution timed out after " ++ toString timeout_secs ++ " seconds")
    warnings := none }

/-- The post-spawn portion of `run_internal`, as a function of what the
child produced: the stdout records, the exit status (success flag and
`status.code()`), and the drained stderr text.  Runs the stdout loop
with the production ceilings, reconciles the exit status, and applies
the Result Validator in `Full` mode. -/
def run_internal (evs : List LineEvent) (statusSuccess : Bool) (exitCode : Option Int)
    (stderr_output : String) : ClaudeResult :=
  enforce_required_fields
    (reconcile statusSuccess exitCode stderr_output
      (processLines MAX_ALL_MESSAGES_SIZE MAX_AGENT_MESSAGES_SIZE evs).res)
    ValidationMode.Full

/-- `run`: resolves the timeout duration, then either (deadline
expired) returns the synthetic timeout result with validation
skipped, or returns the completed `run_internal` result.  `timedOut`
says whether the `tokio::time::timeout` race was lost. -/
def run (opts_timeout_secs cfg_timeout_secs : Option Nat) (timedOut : Bool)
    (evs : List LineEvent) (statusSuccess : Bool) (exitCode : Option Int)
    (stderr_output : String) : ClaudeResult :=
  let timeout_secs := effective_timeout_secs opts_timeout_secs cfg_timeout_secs
  if timedOut then enforce_required_fields (timeoutResult timeout_secs) ValidationMode.Skip
  else run_internal evs statusSuccess exitCode stderr_output

/-- `read_line_with_limit`: read one newline-delimited record from the
byte stream `s` into `buf`, appending bytes while `buf` is under
`maxLen` and not yet truncated; once full, stop retaining but keep
consuming until the newline (marking the record truncated); return
`(buf, bytes_read, truncated, remaining stream)`.  The per-byte body
is chunk-boundary independent, so the stream is modelled flat.
Newline is byte 10. -/
def read_line_with_limit (maxLen : Nat) :
    List Nat → List Nat → Nat → Bool → List Nat × Nat × Bool × List Nat
  | [], buf, total, trunc => (buf, total, trunc, [])
  | b :: rest, buf, total, trunc =>
    if trunc = false ∧ buf.length < maxLen then
      if b = 10 then (buf ++ [b], total + 1, trunc, rest)
      else read_line_with_limit maxLen rest (buf ++ [b]) (total + 1) trunc
    else if trunc = false then
      if b = 10 then (buf, total, true, rest)
      else read_line_with_limit maxLen rest buf total true
    else
      if b = 10 then (buf, total, trunc, rest)
      else read_line_with_limit maxLen rest buf total trunc

/-- `ClaudeOutput` from `src/server.rs`: the serialized invocation
output.  `Option` fields model `skip_serializing_if = "Option::is_none"`:
the field appears in the serialized JSON exactly when the value is
`some`. -/
structure ClaudeOutput where
  success : Bool
  session_id : String
  message : String
  agent_messages_truncated : Option Bool
  all_messages : Option (List (List (String × Json)))
  all_messages_truncated : Option Bool
  error : Option String
  warnings : Option String

/-- The `ClaudeOutput` the `claude` tool handler builds from an
execution result (both the success and the failure branch of
`ClaudeServer::claude` construct exactly this value). -/
def makeClaudeOutput (result : ClaudeResult) : ClaudeOutput :=
  { success := result.success
    session_id := result.session_id
    message := result.agent_messages
    agent_messages_truncated :=
      if result.agent_messages_truncated then some true else none
    all_messages := none
    all_messages_truncated := none
    error := result.error
    warnings := result.warnings }

/-- A `result` event flagged as an error, carrying result text `T`
(the shape of the child-contract line
`{"type":"result","result":T,"is_error":true}`). -/
def resultErrorEvent (T : String) : Json :=
  .obj [("type", .str "result"), ("result", .str T), ("is_error", .bool true)]

/-! Preservation lemmas about which fields each aggregation step can
touch. -/

/-- Appending assistant text never touches the success flag, the
error, the session id, the raw-event collection or the warnings. -/
theorem appendAgentText_preserves (m : Nat) (r : ClaudeResult) (t : String) :
    (appendAgentText m r t).success = r.success ∧
    (appendAgentText m r t).error = r.error ∧
    (appendAgentText m r t).session_id = r.session_id ∧
    (appendAgentText m r t).all_messages = r.all_messages ∧
    (appendAgentText m r t).all_messages_truncated = r.all_messages_truncated ∧
    (appendAgentText m r t).warnings = r.warnings := by
  unfold appendAgentText
  dsimp only
  split_ifs <;> simp

/-- The assistant-arm block walk only touches the assistant-text
fields. -/
theorem processBlocks_preserves (m : Nat) (bs : List Json) : ∀ (r : ClaudeResult),
    (processBlocks m r bs).success = r.success ∧
    (processBlocks m r bs).error = r.error ∧
    (processBlocks m r bs).session_id = r.session_id ∧
    (processBlocks m r bs).all_messages = r.all_messages ∧
    (processBlocks m r bs).all_messages_truncated = r.all_messages_truncated ∧
    (processBlocks m r bs).warnings = r.warnings := by
  induction bs with
  | nil => intro r; simp [processBlocks]
  | cons b bs ih =>
    intro r
    have hstep : processBlocks m r (b :: bs) =
        processBlocks m
          (if (b.get "type").bind Json.asStr = some "text" then
            match (b.get "text").bind Json.asStr with
            | some text => appendAgentText m r text
            | none => r
          else r) bs := rfl
    rw [hstep]
    split_ifs with h
    · rcases hx : (b.get "text").bind Json.asStr with _ | text
      · exact ih r
      · have h1 := ih (appendAgentText m r text)
        have h2 := appendAgentText_preserves m r text
        exact ⟨h1.1.trans h2.1, h1.2.1.trans h2.2.1, h1.2.2.1.trans h2.2.2.1,
          h1.2.2.2.1.trans h2.2.2.2.1, h1.2.2.2.2.1.trans h2.2.2.2.2.1,
          h1.2.2.2.2.2.trans h2.2.2.2.2.2⟩
    · exact ih r

/-- The result arm only touches the assistant-text fields, the success
flag and the error. -/
theorem processResult_preserves (m : Nat) (r : ClaudeResult) (j : Json) :
    (processResult m r j).session_id = r.session_id ∧
    (processResult m r j).all_messages = r.all_messages ∧
    (processResult m r j).all_messages_truncated = r.all_messages_truncated ∧
    (processResult m r j).warnings = r.warnings := by
  unfold processResult
  rcases hx : (j.get "result").bind Json.asStr with _ | text <;> dsimp only <;>
    [skip; have h2 := appendAgentText_preserves m r text] <;>
    split_ifs <;> simp_all

/-- The result arm preserves the error-implies-failure invariant: it
either leaves success and error untouched or forces failure. -/
theorem processResult_inv (m : Nat) (r : ClaudeResult) (j : Json)
    (hr : r.error.isSome = true → r.success = false) :
    (processResult m r j).error.isSome = true → (processResult m r j).success = false := by
  unfold processResult
  rcases hx : (j.get "result").bind Json.asStr with _ | text <;> dsimp only <;>
    [skip; have h2 := appendAgentText_preserves m r text] <;>
    split_ifs <;> simp_all

/-- Raw-event collection only touches the collection fields. -/
theorem pjCollect_preserves (maxAll allSize : Nat) (r : ClaudeResult) (j : Json) :
    (pjCollect maxAll allSize r j).2.success = r.success ∧
    (pjCollect maxAll allSize r j).2.error = r.error ∧
    (pjCollect maxAll allSize r j).2.session_id = r.session_id ∧
    (pjCollect maxAll allSize r j).2.agent_messages = r.agent_messages ∧
    (pjCollect maxAll allSize r j).2.agent_messages_truncated = r.agent_messages_truncated ∧
    (pjCollect maxAll allSize r j).2.warnings = r.warnings := by
  unfold pjCollect
  rcases hx : j.asObj with _ | map <;> dsimp only <;> [simp; split_ifs] <;> simp

/-- Session-id extraction only touches the session id. -/
theorem pjSession_preserves (r : ClaudeResult) (j : Json) :
    (pjSession r j).success = r.success ∧
    (pjSession r j).error = r.error ∧
    (pjSession r j).agent_messages = r.agent_messages ∧
    (pjSession r j).agent_messages_truncated = r.agent_messages_truncated ∧
    (pjSession r j).all_messages = r.all_messages ∧
    (pjSession r j).all_messages_truncated = r.all_messages_truncated ∧
    (pjSession r j).warnings = r.warnings := by
  unfold pjSession
  rcases hx : (j.get "session_id").bind Json.asStr with _ | sid <;> dsimp only <;>
    [simp; split_ifs] <;> simp

/-- Type dispatch never touches the session id, the raw-event
collection or the warnings. -/
theorem pjDispatch_preserves (m : Nat) (r : ClaudeResult) (j : Json) :
    (pjDispatch m r j).session_id = r.session_id ∧
    (pjDispatch m r j).all_messages = r.all_messages ∧
    (pjDispatch m r j).all_messages_truncated = r.all_messages_truncated ∧
    (pjDispatch m r j).warnings = r.warnings := by
  unfold pjDispatch
  rcases ht : (j.get "type").bind Json.asStr with _ | t <;> dsimp only
  · simp
  · split_ifs
    · rcases hm : (j.get "message").bind Json.asObj with _ | message <;> dsimp only
      · simp
      · rcases hc : (message.lookup "content").bind Json.asArr with _ | content <;>
          dsimp only
        · simp
        · have := processBlocks_preserves m content r
          exact ⟨this.2.2.1, this.2.2.2.1, this.2.2.2.2.1, this.2.2.2.2.2⟩
    · exact processResult_preserves m r j
    · simp

/-- Type dispatch preserves the error-implies-failure invariant. -/
theorem pjDispatch_inv (m : Nat) (r : ClaudeResult) (j : Json)
    (hr : r.error.isSome = true → r.success = false) :
    (pjDispatch m r j).error.isSome = true → (pjDispatch m r j).success = false := by
  unfold pjDispatch
  rcases ht : (j.get "type").bind Json.asStr with _ | t <;> dsimp only
  · exact hr
  · split_ifs
    · rcases hm : (j.get "message").bind Json.asObj with _ | message <;> dsimp only
      · exact hr
      · rcases hc : (message.lookup "content").bind Json.asArr with _ | content <;>
          dsimp only
        · exact hr
        · have := processBlocks_preserves m content r
          rw [this.1, this.2.1]; exact hr
    · exact processResult_inv m r j hr
    · exact hr

/-- A parsed line preserves the error-implies-failure invariant. -/
theorem processJson_inv (maxAll maxAgent n : Nat) (r : ClaudeResult) (j : Json)
    (hr : r.error.isSome = true → r.success = false) :
    (processJson maxAll maxAgent n r j).2.error.isSome = true →
    (processJson maxAll maxAgent n r j).2.success = false := by
  have hc := pjCollect_preserves maxAll n r j
  have hs := pjSession_preserves (pjCollect maxAll n r j).2 j
  apply pjDispatch_inv
  rw [hs.1, hs.2.1, hc.1, hc.2.1]
  exact hr

/-- Record maps of successfully parsed lines never clear the
parse-error latch, and parsed lines never set it. -/
theorem stepLine_ok_seen (maxAll maxAgent : Nat) (st : LoopState) (j : Json) :
    (stepLine maxAll maxAgent st (.ok j)).parse_error_seen = st.parse_error_seen := by
  unfold stepLine
  split_ifs <;> rfl

/-- One loop iteration preserves the error-implies-failure invariant. -/
theorem stepLine_inv (maxAll maxAgent : Nat) (st : LoopState) (ev : LineEvent)
    (h : st.res.error.isSome = true → st.res.success = false) :
    (stepLine maxAll maxAgent st ev).res.error.isSome = true →
    (stepLine maxAll maxAgent st ev).res.success = false := by
  cases ev with
  | truncatedLine => unfold stepLine; dsimp only; split_ifs <;> intro _ <;> rfl
  | emptyLine => exact h
  | parseFail line errMsg =>
    unfold stepLine
    dsimp only
    split_ifs with hseen
    · exact h
    · intro _; rfl
  | ok j =>
    unfold stepLine
    dsimp only
    split_ifs with hseen
    · exact h
    · exact processJson_inv maxAll maxAgent st.all_messages_size st.res j h

/-- The whole stdout loop preserves the error-implies-failure
invariant. -/
theorem processLines_inv (maxAll maxAgent : Nat) (evs : List LineEvent) :
    (processLines maxAll maxAgent evs).res.error.isSome = true →
    (processLines maxAll maxAgent evs).res.success = false := by
  unfold processLines
  have h0 : initState.res.error.isSome = true → initState.res.success = false := by
    intro h; simp [initState, initResult] at h
  generalize hst : initState = st
  rw [hst] at h0
  clear hst
  induction evs generalizing st with
  | nil => exact h0
  | cons ev evs ih =>
    rw [List.foldl_cons]
    exact ih (stepLine maxAll maxAgent st ev) (stepLine_inv maxAll maxAgent st ev h0)

/-- Reconciliation preserves the error-implies-failure invariant. -/
theorem reconcile_inv (statusSuccess : Bool) (exitCode : Option Int) (so : String)
    (r : ClaudeResult) (h : r.error.isSome = true → r.success = false) :
    (reconcile statusSuccess exitCode so r).error.isSome = true →
    (reconcile statusSuccess exitCode so r).success = false := by
  unfold reconcile
  split_ifs <;> first | (intro _; rfl) | simpa using h

/-- The Result Validator preserves the error-implies-failure
invariant. -/
theorem enforce_inv (r : ClaudeResult) (mode : ValidationMode)
    (h : r.error.isSome = true → r.success = false) :
    (enforce_required_fields r mode).error.isSome = true →
    (enforce_required_fields r mode).success = false := by
  unfold enforce_required_fields
  dsimp only
  split_ifs <;> first | (intro _; rfl) | simpa using h

/-- A zero exit with empty stderr leaves the result untouched by
reconciliation. -/
theorem reconcile_true_empty (ec : Option Int) (r : ClaudeResult) :
    reconcile true ec "" r = r := by
  simp [reconcile]

/-- With an error already present, full validation changes neither the
success flag nor the error. -/
theorem enforce_full_error_some (r : ClaudeResult) (e : String) (h : r.error = some e) :
    (enforce_required_fields r ValidationMode.Full).success = r.success ∧
    (enforce_required_fields r ValidationMode.Full).error = r.error := by
  simp_all [enforce_required_fields]
  split_ifs <;> simp_all

/-- Classifying an error-flagged `result` event forces failure and
overwrites the error with the tool's own message, whatever the prior
state. -/
theorem processJson_resultErr (maxAll maxAgent n : Nat) (r : ClaudeResult) (T : String) :
    (processJson maxAll maxAgent n r (resultErrorEvent T)).2.success = false ∧
    (processJson maxAll maxAgent n r (resultErrorEvent T)).2.error =
      some ("Claude error: " ++ T) :=
  ⟨rfl, rfl⟩

/-- A stream of parsed lines never sets the parse-error latch. -/
theorem foldl_ok_parse_error_seen (maxAll maxAgent : Nat) (js : List Json) :
    ∀ st : LoopState,
      (List.foldl (stepLine maxAll maxAgent) st (js.map .ok)).parse_error_seen =
        st.parse_error_seen := by
  induction js with
  | nil => intro st; rfl
  | cons j js ih =>
    intro st
    rw [List.map_cons, List.foldl_cons, ih, stepLine_ok_seen]

/-- Exact behavior of raw-event collection on an object event: the
event is appended (and the running size bumped) when the running size
plus its serialized size fits under the ceiling; otherwise it is
dropped, the size is unchanged and the truncation flag ends up
true. -/
theorem pjCollect_obj (maxAll allSize : Nat) (r : ClaudeResult)
    (flds : List (String × Json)) :
    (allSize + serLen (.obj flds) ≤ maxAll →
      pjCollect maxAll allSize r (.obj flds) =
        (allSize + serLen (.obj flds),
          { r with all_messages := r.all_messages ++ [flds] })) ∧
    (maxAll < allSize + serLen (.obj flds) →
      (pjCollect maxAll allSize r (.obj flds)).1 = allSize ∧
      (pjCollect maxAll allSize r (.obj flds)).2.all_messages = r.all_messages ∧
      (pjCollect maxAll allSize r (.obj flds)).2.all_messages_truncated = true) := by
  constructor
  · intro h
    simp [pjCollect, Json.asObj, h]
  · intro h
    have hn : ¬(allSize + serLen (.obj flds) ≤ maxAll) := by omega
    unfold pjCollect
    dsimp only [Json.asObj]
    rw [if_neg hn]
    by_cases hf : r.all_messages_truncated = false
    · rw [if_pos hf]
      exact ⟨rfl, rfl, rfl⟩
    · rw [if_neg hf]
      refine ⟨rfl, rfl, ?_⟩
      simpa using hf

/-- Raw-event collection only ever appends. -/
theorem pjCollect_all_messages_mono (maxAll allSize : Nat) (r : ClaudeResult) (j : Json) :
    ∃ tail, (pjCollect maxAll allSize r j).2.all_messages = r.all_messages ++ tail := by
  unfold pjCollect
  rcases hx : j.asObj with _ | map
  · exact ⟨[], by simp⟩
  · dsimp only
    split_ifs
    · exact ⟨[map], rfl⟩
    · exact ⟨[], by simp⟩
    · exact ⟨[], by simp⟩

/-- The raw-event truncation flag is never cleared by collection. -/
theorem pjCollect_flag_mono (maxAll allSize : Nat) (r : ClaudeResult) (j : Json)
    (h : r.all_messages_truncated = true) :
    (pjCollect maxAll allSize r j).2.all_messages_truncated = true := by
  unfold pjCollect
  rcases hx : j.asObj with _ | map
  · exact h
  · dsimp only
    split_ifs <;> simp_all

/-- One loop iteration only ever appends to the raw-event
collection. -/
theorem stepLine_all_messages_mono (maxAll maxAgent : Nat) (st : LoopState) (ev : LineEvent) :
    ∃ tail, (stepLine maxAll maxAgent st ev).res.all_messages =
      st.res.all_messages ++ tail := by
  cases ev with
  | truncatedLine =>
    refine ⟨[], ?_⟩
    unfold stepLine
    dsimp only
    split_ifs <;> simp
  | emptyLine => exact ⟨[], by simp [stepLine]⟩
  | parseFail line errMsg =>
    refine ⟨[], ?_⟩
    unfold stepLine
    dsimp only
    split_ifs <;> simp [record_parse_error]
  | ok j =>
    unfold stepLine
    dsimp only
    split_ifs
    · exact ⟨[], by simp⟩
    · have hd := pjDispatch_preserves maxAgent
        (pjSession (pjCollect maxAll st.all_messages_size st.res j).2 j) j
      have hs := pjSession_preserves (pjCollect maxAll st.all_messages_size st.res j).2 j
      obtain ⟨tail, htail⟩ :=
        pjCollect_all_messages_mono maxAll st.all_messages_size st.res j
      refine ⟨tail, ?_⟩
      show (pjDispatch maxAgent
        (pjSession (pjCollect maxAll st.all_messages_size st.res j).2 j) j).all_messages =
        st.res.all_messages ++ tail
      rw [hd.2.1, hs.2.2.2.2.1, htail]

/-- One loop iteration never clears the raw-event truncation flag. -/
theorem stepLine_flag_mono (maxAll maxAgent : Nat) (st : LoopState) (ev : LineEvent)
    (h : st.res.all_messages_truncated = true) :
    (stepLine maxAll maxAgent st ev).res.all_messages_truncated = true := by
  cases ev with
  | truncatedLine =>
    unfold stepLine
    dsimp only
    split_ifs <;> exact h
  | emptyLine => exact h
  | parseFail line errMsg =>
    unfold stepLine
    dsimp only
    split_ifs
    · exact h
    · exact h
  | ok j =>
    unfold stepLine
    dsimp only
    split_ifs
    · exact h
    · have hd := pjDispatch_preserves maxAgent
        (pjSession (pjCollect maxAll st.all_messages_size st.res j).2 j) j
      have hs := pjSession_preserves (pjCollect maxAll st.all_messages_size st.res j).2 j
      show (pjDispatch maxAgent
        (pjSession (pjCollect maxAll st.all_messages_size st.res j).2 j) j).all_messages_truncated
        = true
      rw [hd.2.2.1, hs.2.2.2.2.2.1]
      exact pjCollect_flag_mono maxAll st.all_messages_size st.res j h

/-- Reduction of one byte of the stream while the record is not yet
truncated: under the cap the byte is retained, at the cap the record
becomes truncated; a newline ends the read either way. -/
theorem read_cons_false (maxLen b : Nat) (rest buf : List Nat) (total : Nat) :
    read_line_with_limit maxLen (b :: rest) buf total false =
      if buf.length < maxLen then
        (if b = 10 then (buf ++ [b], total + 1, false, rest)
         else read_line_with_limit maxLen rest (buf ++ [b]) (total + 1) false)
      else
        (if b = 10 then (buf, total, true, rest)
         else read_line_with_limit maxLen rest buf total true) := by
  simp only [read_line_with_limit]
  by_cases hlt : buf.length < maxLen
  · rw [if_pos (⟨trivial, hlt⟩ : True ∧ buf.length < maxLen), if_pos hlt]
  · rw [if_neg (fun hc : True ∧ buf.length < maxLen => hlt hc.2),
      if_pos (trivial : True), if_neg hlt]

/-- Reduction of one byte of the stream after truncation: nothing is
retained, bytes are consumed until the newline. -/
theorem read_cons_true (maxLen b : Nat) (rest buf : List Nat) (total : Nat) :
    read_line_with_limit maxLen (b :: rest) buf total true =
      (if b = 10 then (buf, total, true, rest)
       else read_line_with_limit maxLen rest buf total true) := by
  simp only [read_line_with_limit]
  rw [if_neg (fun hc : (true = false) ∧ buf.length < maxLen => Bool.noConfusion hc.1),
    if_neg (fun hc : (true = false) => Bool.noConfusion hc)]

/-- After a read, the unconsumed stream is exactly what follows the
first newline (everything is consumed when there is no newline). -/
theorem read_rest (maxLen : Nat) : ∀ (s buf : List Nat) (total : Nat) (trunc : Bool),
    (read_line_with_limit maxLen s buf total trunc).2.2.2 =
      if (10 : Nat) ∈ s then (s.dropWhile (fun b => b ≠ 10)).tail else [] := by
  intro s
  induction s with
  | nil => intro buf total trunc; simp [read_line_with_limit]
  | cons b rest ih =>
    intro buf total trunc
    by_cases hb : b = 10
    · subst hb
      have hd : ((10 : Nat) :: rest).dropWhile (fun b => b ≠ 10) = 10 :: rest := by
        simp [List.dropWhile_cons]
      have hmem : (10 : Nat) ∈ 10 :: rest := List.mem_cons_self 10 rest
      rcases trunc with _ | _
      · rw [read_cons_false]
        by_cases hlt : buf.length < maxLen
        · rw [if_pos hlt, if_pos rfl, if_pos hmem, hd]
          rfl
        · rw [if_neg hlt, if_pos rfl, if_pos hmem, hd]
          rfl
      · rw [read_cons_true, if_pos rfl, if_pos hmem, hd]
        rfl
    · have hb' : ¬((10 : Nat) = b) := fun h => hb h.symm
      have hd : ((b : Nat) :: rest).dropWhile (fun b => b ≠ 10) =
          rest.dropWhile (fun b => b ≠ 10) := by
        simp [List.dropWhile_cons, hb]
      have hm : ((10 : Nat) ∈ b :: rest) ↔ ((10 : Nat) ∈ rest) := by
        simp [List.mem_cons, hb']
      rcases trunc with _ | _
      · rw [read_cons_false]
        by_cases hlt : buf.length < maxLen
        · rw [if_pos hlt, if_neg hb, ih, hd]
          simp [hm]
        · rw [if_neg hlt, if_neg hb, ih, hd]
          simp [hm]
      · rw [read_cons_true, if_neg hb, ih, hd]
        simp [hm]

/-- The output buffer never grows past the cap. -/
theorem read_buf_le (maxLen : Nat) : ∀ (s buf : List Nat) (total : Nat) (trunc : Bool),
    buf.length ≤ maxLen →
    (read_line_with_limit maxLen s buf total trunc).1.length ≤ maxLen := by
  intro s
  induction s with
  | nil => intro buf total trunc h; simpa [read_line_with_limit] using h
  | cons b rest ih =>
    intro buf total trunc h
    rcases trunc with _ | _
    · rw [read_cons_false]
      split_ifs with hlt hb hb2
      · simp only [List.length_append, List.length_cons, List.length_nil]
        omega
      · refine ih (buf ++ [b]) (total + 1) false ?_
        simp only [List.length_append, List.length_cons, List.length_nil]
        omega
      · exact h
      · exact ih buf total true h
    · rw [read_cons_true]
      split_ifs
      · exact h
      · exact ih buf total true h

/-- The reported byte count tracks the growth of the buffer. -/
theorem read_total (maxLen : Nat) : ∀ (s buf : List Nat) (total : Nat) (trunc : Bool),
    (read_line_with_limit maxLen s buf total trunc).2.1 + buf.length =
      total + (read_line_with_limit maxLen s buf total trunc).1.length := by
  intro s
  induction s with
  | nil => intro buf total trunc; simp [read_line_with_limit, Nat.add_comm]
  | cons b rest ih =>
    intro buf total trunc
    rcases trunc with _ | _
    · rw [read_cons_false]
      split_ifs with hlt hb hb2
      · simp only [List.length_append, List.length_cons, List.length_nil]
        omega
      · have h5 := ih (buf ++ [b]) (total + 1) false
        simp only [List.length_append, List.length_cons, List.length_nil] at h5 ⊢
        omega
      · simp [Nat.add_comm]
      · exact ih buf total true
    · rw [read_cons_true]
      split_ifs
      · simp [Nat.add_comm]
      · exact ih buf total true

/-- Once the record is marked truncated, the buffer stops growing. -/
theorem read_buf_of_trunc (maxLen : Nat) : ∀ (s buf : List Nat) (total : Nat),
    (read_line_with_limit maxLen s buf total true).1 = buf := by
  intro s
  induction s with
  | nil => intro buf total; rfl
  | cons b rest ih =>
    intro buf total
    rw [read_cons_true]
    split_ifs
    · rfl
    · exact ih buf total

/-- On a stream with no newline, the buffer receives exactly the first
`maxLen` remaining bytes of the stream. -/
theorem read_buf_no_nl (maxLen : Nat) : ∀ (s buf : List Nat) (total : Nat),
    (10 : Nat) ∉ s → buf.length ≤ maxLen →
    (read_line_with_limit maxLen s buf total false).1 =
      buf ++ s.take (maxLen - buf.length) := by
  intro s
  induction s with
  | nil => intro buf total _ _; simp [read_line_with_limit]
  | cons b rest ih =>
    intro buf total hnl h
    have hb : ¬(b = 10) := fun hq => hnl (hq ▸ List.mem_cons_self b rest)
    have hrest : (10 : Nat) ∉ rest := fun hq => hnl (List.mem_cons_of_mem b hq)
    rw [read_cons_false]
    by_cases hlt : buf.length < maxLen
    · rw [if_pos hlt, if_neg hb]
      have hlen : (buf ++ [b]).length ≤ maxLen := by
        simp only [List.length_append, List.length_cons, List.length_nil]
        omega
      rw [ih (buf ++ [b]) (total + 1) hrest hlen]
      have hsub : maxLen - buf.length = (maxLen - (buf ++ [b]).length) + 1 := by
        simp only [List.length_append, List.length_cons, List.length_nil]
        omega
      rw [hsub, List.take_succ_cons, List.append_assoc]
      rfl
    · rw [if_neg hlt, if_neg hb, read_buf_of_trunc]
      have hz : maxLen - buf.length = 0 := by omega
      simp [hz]

/-- The truncated flag is reported exactly when the first record
(content plus its newline byte when present), on top of what the
buffer already holds, exceeds the cap. -/
theorem read_trunc (maxLen : Nat) : ∀ (s buf : List Nat) (total : Nat) (trunc : Bool),
    buf.length ≤ maxLen →
    (read_line_with_limit maxLen s buf total trunc).2.2.1 =
      (trunc || decide (maxLen < buf.length + (s.takeWhile (fun b => b ≠ 10)).length +
        (if (10 : Nat) ∈ s then 1 else 0))) := by
  intro s
  induction s with
  | nil =>
    intro buf total trunc h
    have hnot : ¬(maxLen < buf.length +
        (([] : List Nat).takeWhile (fun b => b ≠ 10)).length +
        (if (10 : Nat) ∈ ([] : List Nat) then 1 else 0)) := by
      rw [if_neg (by simp : ¬((10 : Nat) ∈ ([] : List Nat)))]
      simp only [List.takeWhile_nil, List.length_nil]
      omega
    show trunc = _
    rw [decide_eq_false hnot, Bool.or_false]
  | cons b rest ih =>
    intro buf total trunc h
    by_cases hb : b = 10
    · subst hb
      have htw : (((10 : Nat) :: rest).takeWhile (fun b => b ≠ 10)) = [] := by
        simp [List.takeWhile_cons]
      have hmem : (10 : Nat) ∈ 10 :: rest := List.mem_cons_self 10 rest
      rcases trunc with _ | _
      · rw [read_cons_false, if_pos rfl, if_pos rfl]
        by_cases hlt : buf.length < maxLen
        · rw [if_pos hlt]
          rw [htw]
          simp only [List.length_nil, if_pos hmem, Bool.false_or]
          symm
          rw [decide_eq_false]
          omega
        · rw [if_neg hlt]
          rw [htw]
          simp only [List.length_nil, if_pos hmem, Bool.false_or]
          symm
          exact decide_eq_true (by omega)
      · rw [read_cons_true, if_pos rfl]
        rfl
    · have htw : (((b : Nat) :: rest).takeWhile (fun x => x ≠ 10)) =
          b :: rest.takeWhile (fun x => x ≠ 10) := by
        simp [List.takeWhile_cons, hb]
      have hm : ((10 : Nat) ∈ b :: rest) ↔ ((10 : Nat) ∈ rest) := by
        constructor
        · intro hq
          rcases List.mem_cons.mp hq with hq1 | hq2
          · exact absurd hq1.symm hb
          · exact hq2
        · exact fun hq => List.mem_cons_of_mem b hq
      have hnlif : (if (10 : Nat) ∈ b :: rest then 1 else 0) =
          (if (10 : Nat) ∈ rest then 1 else 0) := by
        simp [hm]
      rcases trunc with _ | _
      · rw [read_cons_false, if_neg hb, if_neg hb]
        by_cases hlt : buf.length < maxLen
        · rw [if_pos hlt]
          have hlen : (buf ++ [b]).length ≤ maxLen := by
            simp only [List.length_append, List.length_cons, List.length_nil]
            omega
          rw [ih (buf ++ [b]) (total + 1) false hlen]
          rw [htw, hnlif]
          simp only [List.length_cons, List.length_append, List.length_nil,
            Bool.false_or]
          rw [decide_eq_decide]
          omega
        · rw [if_neg hlt]
          rw [ih buf total true h]
          rw [htw, hnlif]
          simp only [List.length_cons, Bool.true_or, Bool.false_or]
          symm
          exact decide_eq_true (by omega)
      · rw [read_cons_true, if_neg hb]
        rw [ih buf total true h]
        simp

/-! Claim theorems. -/

/-- C8: on every non-fault path of `run` (normal completion, parse
error, truncation, tool-reported error, non-zero exit, timeout),
whenever the error field of the returned Execution Result is set, the
success flag is false. -/
theorem C8_error_implies_failure (opts_t cfg_t : Option Nat) (timedOut : Bool)
    (evs : List LineEvent) (ss : Bool) (ec : Option Int) (so : String) :
    (run opts_t cfg_t timedOut evs ss ec so).error.isSome = true →
    (run opts_t cfg_t timedOut evs ss ec so).success = false := by
  cases timedOut with
  | true =>
    have hrun : run opts_t cfg_t true evs ss ec so =
        timeoutResult (effective_timeout_secs opts_t cfg_t) := rfl
    rw [hrun]
    intro _
    rfl
  | false =>
    have hrun : run opts_t cfg_t false evs ss ec so =
        enforce_required_fields
          (reconcile ss ec so
            (processLines MAX_ALL_MESSAGES_SIZE MAX_AGENT_MESSAGES_SIZE evs).res)
          ValidationMode.Full := rfl
    rw [hrun]
    exact enforce_inv _ _ (reconcile_inv _ _ _ _
      (processLines_inv MAX_ALL_MESSAGES_SIZE MAX_AGENT_MESSAGES_SIZE evs))

/-- Witness for C8: a run with a non-zero exit status has its error
set, and the theorem yields that its success flag is false. -/
theorem C8_witness :
    (run none none false [] false (some 2) "").error.isSome = true ∧
    (run none none false [] false (some 2) "").success = false :=
  ⟨rfl, C8_error_implies_failure none none false [] false (some 2) "" rfl⟩

/-- C7: when the deadline expires, the returned result is exactly the
synthetic timeout result: unsuccessful, with an error stating the
elapsed seconds, and untouched by the Result Validator (no session-id
error and no empty-assistant-text warning is added). -/
theorem C7_timeout_bypasses_validator (opts_t cfg_t : Option Nat) (evs : List LineEvent)
    (ss : Bool) (ec : Option Int) (so : String) :
    run opts_t cfg_t true evs ss ec so =
      timeoutResult (effective_timeout_secs opts_t cfg_t) ∧
    enforce_required_fields (timeoutResult (effective_timeout_secs opts_t cfg_t))
        ValidationMode.Skip =
      timeoutResult (effective_timeout_secs opts_t cfg_t) ∧
    (run opts_t cfg_t true evs ss ec so).success = false ∧
    (run opts_t cfg_t true evs ss ec so).error =
      some ("Claude execution timed out after " ++
        toString (effective_timeout_secs opts_t cfg_t) ++ " seconds") ∧
    (run opts_t cfg_t true evs ss ec so).warnings = none ∧
    (run opts_t cfg_t true evs ss ec so).session_id = "" :=
  ⟨rfl, rfl, rfl, rfl, rfl, rfl⟩

/-- C9 counterexample: a result whose raw-event collection was
truncated still yields an output whose `all_messages_truncated` field
is absent (`none`), not `some true` — the server hardcodes the field
to `None`. -/
theorem C9_counterexample :
    ({ initResult with all_messages_truncated := true } : ClaudeResult).all_messages_truncated
        = true ∧
    (makeClaudeOutput
        { initResult with all_messages_truncated := true }).all_messages_truncated = none :=
  ⟨rfl, rfl⟩

/-- C9 amended: the output emits `agent_messages_truncated` exactly
when the assistant text was truncated (as `some true`, omitted
otherwise); `all_messages` and `all_messages_truncated` are always
omitted regardless of truncation; `error` and `warnings` pass through
(omitted exactly when absent). -/
theorem C9_amended_output_fields (result : ClaudeResult) :
    (makeClaudeOutput result).success = result.success ∧
    (makeClaudeOutput result).session_id = result.session_id ∧
    (makeClaudeOutput result).message = result.agent_messages ∧
    (result.agent_messages_truncated = true →
      (makeClaudeOutput result).agent_messages_truncated = some true) ∧
    (result.agent_messages_truncated = false →
      (makeClaudeOutput result).agent_messages_truncated = none) ∧
    (makeClaudeOutput result).all_messages = none ∧
    (makeClaudeOutput result).all_messages_truncated = none ∧
    (makeClaudeOutput result).error = result.error ∧
    (makeClaudeOutput result).warnings = result.warnings := by
  refine ⟨rfl, rfl, rfl, ?_, ?_, rfl, rfl, rfl, rfl⟩ <;>
    intro h <;> simp [makeClaudeOutput, h]

/-- Witness for C9 amended: on the initial result (assistant text not
truncated) the `agent_messages_truncated` field is omitted. -/
theorem C9_amended_witness :
    initResult.agent_messages_truncated = false ∧
    (makeClaudeOutput initResult).agent_messages_truncated = none :=
  ⟨rfl, (C9_amended_output_fields initResult).2.2.2.2.1 rfl⟩

/-- C3 counterexample: a caller-supplied `timeout_secs` of 7200 is
used as the deadline unchanged — it is not clamped to the 3600-second
hard maximum (the timeout error names 7200 seconds). -/
theorem C3_counterexample :
    effective_timeout_secs (some 7200) none = 7200 ∧
    MAX_TIMEOUT_SECS < effective_timeout_secs (some 7200) none ∧
    (run (some 7200) none true [] true none "").error =
      some "Claude execution timed out after 7200 seconds" :=
  ⟨rfl, by decide, by decide⟩

/-- C3 amended: the configured (config-file) timeout is clamped to
the hard maximum and defaults to 600 when missing or zero, and `run`
falls back to that configured value when the caller supplied no
timeout; a caller-supplied value, however, is used without
clamping. -/
theorem C3_amended_timeout_resolution (cfg : Option Nat) (t : Nat) :
    default_timeout_secs cfg ≤ MAX_TIMEOUT_SECS ∧
    0 < default_timeout_secs cfg ∧
    default_timeout_secs none = DEFAULT_TIMEOUT_SECS ∧
    default_timeout_secs (some 0) = DEFAULT_TIMEOUT_SECS ∧
    (MAX_TIMEOUT_SECS < t → default_timeout_secs (some t) = MAX_TIMEOUT_SECS) ∧
    (0 < t → t ≤ MAX_TIMEOUT_SECS → default_timeout_secs (some t) = t) ∧
    effective_timeout_secs none cfg = default_timeout_secs cfg ∧
    effective_timeout_secs (some t) cfg = t := by
  have hmax : MAX_TIMEOUT_SECS = 3600 := rfl
  have hdef : DEFAULT_TIMEOUT_SECS = 600 := rfl
  refine ⟨?_, ?_, rfl, rfl, fun h => ?_, fun h1 h2 => ?_, rfl, rfl⟩
  · rcases cfg with _ | c <;> simp only [default_timeout_secs, hmax, hdef]
    · omega
    · split_ifs <;> omega
  · rcases cfg with _ | c <;> simp only [default_timeout_secs, hmax, hdef]
    · omega
    · split_ifs <;> omega
  · rw [hmax] at h ⊢
    simp only [default_timeout_secs, hmax]
    split_ifs <;> omega
  · rw [hmax] at h2
    simp only [default_timeout_secs, hmax, hdef]
    split_ifs <;> omega

/-- Witness for C3 amended: a configured 5000 is clamped to 3600, a
configured 100 passes through. -/
theorem C3_amended_witness :
    MAX_TIMEOUT_SECS < 5000 ∧ default_timeout_secs (some 5000) = MAX_TIMEOUT_SECS ∧
    0 < 100 ∧ 100 ≤ MAX_TIMEOUT_SECS ∧ default_timeout_secs (some 100) = 100 :=
  ⟨by decide, (C3_amended_timeout_resolution (some 5000) 5000).2.2.2.2.1 (by decide),
    by decide, by decide,
    (C3_amended_timeout_resolution (some 100) 100).2.2.2.2.2.1 (by decide) (by decide)⟩

/-- C2 counterexample: with a prior error `"prior"` and exit code 2
(empty stderr), the composed error is exactly `"prior"` — the exit
code 2 does not appear in it, so the error is not composed from the
existing error combined with the exit code. -/
theorem C2_counterexample :
    ({ initResult with error := some "prior" } : ClaudeResult).error = some "prior" ∧
    (reconcile false (some 2) "" { initResult with error := some "prior" }).error
        = some "prior" ∧
    ('2' ∉ "prior".data) :=
  ⟨rfl, rfl, by decide⟩

/-- C2 amended: on non-zero exit the run is forced unsuccessful and
the error is the existing error when one is set (the exit code
appears only when no prior error exists), with non-empty stderr
appended in either case; on zero exit non-empty stderr becomes a
warning and error and success are untouched. -/
theorem C2_amended_reconciliation (r : ClaudeResult) (exitCode : Option Int) (so : String) :
    (reconcile false exitCode so r).success = false ∧
    (∀ e, r.error = some e → so = "" → (reconcile false exitCode so r).error = some e) ∧
    (∀ e, r.error = some e → so ≠ "" →
      (reconcile false exitCode so r).error = some (e ++ "\nStderr: " ++ so)) ∧
    (r.error = none → so = "" → (reconcile false exitCode so r).error =
      some ("claude command failed with exit code: " ++ fmtExitCode exitCode)) ∧
    (r.error = none → so ≠ "" → (reconcile false exitCode so r).error =
      some ("claude command failed with exit code: " ++ fmtExitCode exitCode ++
        "\nStderr: " ++ so)) ∧
    (so ≠ "" → (reconcile true exitCode so r).warnings = some so ∧
      (reconcile true exitCode so r).success = r.success ∧
      (reconcile true exitCode so r).error = r.error) ∧
    (so = "" → reconcile true exitCode so r = r) := by
  refine ⟨?_, fun e he hso => ?_, fun e he hso => ?_, fun he hso => ?_, fun he hso => ?_,
    fun hso => ⟨?_, ?_, ?_⟩, fun hso => ?_⟩ <;>
    first
      | (simp_all [reconcile]; done)
      | (simp_all [reconcile]; split_ifs <;> simp_all)

/-- Witness for C2 amended: with no prior error, exit failure and
empty stderr yield the exit-code message and failure. -/
theorem C2_amended_witness :
    initResult.error = none ∧
    (reconcile false (some 2) "" initResult).error =
      some ("claude command failed with exit code: " ++ fmtExitCode (some 2)) ∧
    (reconcile false (some 2) "" initResult).success = false :=
  ⟨rfl, (C2_amended_reconciliation initResult (some 2) "").2.2.2.1 rfl rfl,
    (C2_amended_reconciliation initResult (some 2) "").1⟩

/-- C6: after a completed non-timeout run, an empty session id with no
error set yields the session-id error and forced failure; an empty
session id with an error already present leaves that error (and the
success flag) unchanged; and the empty-assistant-text warning check
runs in either case. -/
theorem C6_session_id_validation (r : ClaudeResult) :
    (r.session_id = "" → r.error = none →
      (enforce_required_fields r ValidationMode.Full).error = some sessionIdErrorMsg ∧
      (enforce_required_fields r ValidationMode.Full).success = false) ∧
    (∀ e, r.session_id = "" → r.error = some e →
      (enforce_required_fields r ValidationMode.Full).error = some e ∧
      (enforce_required_fields r ValidationMode.Full).success = r.success) ∧
    (r.agent_messages = "" →
      (enforce_required_fields r ValidationMode.Full).warnings =
        push_warning r.warnings noAgentMessagesWarning) ∧
    (r.agent_messages ≠ "" →
      (enforce_required_fields r ValidationMode.Full).warnings = r.warnings) := by
  refine ⟨fun hs he => ?_, fun e hs he => ?_, fun ha => ?_, fun ha => ?_⟩ <;>
    simp_all [enforce_required_fields] <;> split_ifs <;> simp_all

/-- C5: for every stdout stream of parseable events ending in a
`result` event with `is_error: true` and result text `T`, with exit
status zero and empty stderr, the final result is unsuccessful with
error exactly `"Claude error: " ++ T`, regardless of what the earlier
events set. -/
theorem C5_result_error_authoritative (js : List Json) (T : String) (ec : Option Int) :
    (run_internal (js.map .ok ++ [.ok (resultErrorEvent T)]) true ec "").success = false ∧
    (run_internal (js.map .ok ++ [.ok (resultErrorEvent T)]) true ec "").error =
      some ("Claude error: " ++ T) := by
  have hloop : processLines MAX_ALL_MESSAGES_SIZE MAX_AGENT_MESSAGES_SIZE
      (js.map .ok ++ [.ok (resultErrorEvent T)]) =
      stepLine MAX_ALL_MESSAGES_SIZE MAX_AGENT_MESSAGES_SIZE
        (processLines MAX_ALL_MESSAGES_SIZE MAX_AGENT_MESSAGES_SIZE (js.map .ok))
        (.ok (resultErrorEvent T)) := by
    unfold processLines
    rw [List.foldl_append]
    rfl
  have hseen : (processLines MAX_ALL_MESSAGES_SIZE MAX_AGENT_MESSAGES_SIZE
      (js.map .ok)).parse_error_seen = false := by
    unfold processLines
    rw [foldl_ok_parse_error_seen]
    rfl
  have hstep : stepLine MAX_ALL_MESSAGES_SIZE MAX_AGENT_MESSAGES_SIZE
      (processLines MAX_ALL_MESSAGES_SIZE MAX_AGENT_MESSAGES_SIZE (js.map .ok))
      (.ok (resultErrorEvent T)) =
      { processLines MAX_ALL_MESSAGES_SIZE MAX_AGENT_MESSAGES_SIZE (js.map .ok) with
        res := (processJson MAX_ALL_MESSAGES_SIZE MAX_AGENT_MESSAGES_SIZE
          (processLines MAX_ALL_MESSAGES_SIZE MAX_AGENT_MESSAGES_SIZE (js.map .ok)).all_messages_size
          (processLines MAX_ALL_MESSAGES_SIZE MAX_AGENT_MESSAGES_SIZE (js.map .ok)).res
          (resultErrorEvent T)).2
        all_messages_size := (processJson MAX_ALL_MESSAGES_SIZE MAX_AGENT_MESSAGES_SIZE
          (processLines MAX_ALL_MESSAGES_SIZE MAX_AGENT_MESSAGES_SIZE (js.map .ok)).all_messages_size
          (processLines MAX_ALL_MESSAGES_SIZE MAX_AGENT_MESSAGES_SIZE (js.map .ok)).res
          (resultErrorEvent T)).1 } := by
    unfold stepLine
    dsimp only
    rw [hseen]
    rfl
  have hres := processJson_resultErr MAX_ALL_MESSAGES_SIZE MAX_AGENT_MESSAGES_SIZE
    (processLines MAX_ALL_MESSAGES_SIZE MAX_AGENT_MESSAGES_SIZE (js.map .ok)).all_messages_size
    (processLines MAX_ALL_MESSAGES_SIZE MAX_AGENT_MESSAGES_SIZE (js.map .ok)).res T
  unfold run_internal
  rw [hloop, hstep, reconcile_true_empty]
  have hpres := enforce_full_error_some _ ("Claude error: " ++ T) hres.2
  rw [hpres.1, hpres.2]
  exact ⟨hres.1, hres.2⟩

/-- Witness for C6: the initial result (empty session id, no error,
empty assistant text) receives the session-id error, forced failure,
and the assistant-text warning. -/
theorem C6_witness :
    initResult.session_id = "" ∧ initResult.error = none ∧ initResult.agent_messages = "" ∧
    (enforce_required_fields initResult ValidationMode.Full).error = some sessionIdErrorMsg ∧
    (enforce_required_fields initResult ValidationMode.Full).success = false ∧
    (enforce_required_fields initResult ValidationMode.Full).warnings =
      push_warning initResult.warnings noAgentMessagesWarning :=
  ⟨rfl, rfl, rfl, ((C6_session_id_validation initResult).1 rfl rfl).1,
    ((C6_session_id_validation initResult).1 rfl rfl).2,
    (C6_session_id_validation initResult).2.2.1 rfl⟩

/-- C1 counterexample: with ceiling 10, a first object event of
serialized size 13 is dropped and sets the truncation flag — but a
second, smaller event (size 2) is still appended afterwards, so the
collection is not frozen once the ceiling is crossed. -/
theorem C1_counterexample :
    serLen (.obj [("a", .str "hello")]) = 13 ∧
    (processLines 10 100 [.ok (.obj [("a", .str "hello")])]).res.all_messages_truncated
        = true ∧
    (processLines 10 100 [.ok (.obj [("a", .str "hello")])]).res.all_messages = [] ∧
    (processLines 10 100
        [.ok (.obj [("a", .str "hello")]), .ok (.obj [])]).res.all_messages = [[]] ∧
    (processLines 10 100
        [.ok (.obj [("a", .str "hello")]), .ok (.obj [])]).res.all_messages_truncated
        = true :=
  ⟨rfl, rfl, rfl, rfl, rfl⟩

/-- C1 amended: raw events are reflected in arrival order and the
truncation flag, once set, never clears; but the collection is not
frozen when an event is dropped: each object event is appended
exactly when the running byte total plus its serialized size fits
under the ceiling (bumping the total), and an event that does not fit
is dropped with the flag set — later events that fit are still
appended. -/
theorem C1_amended_collection_behavior (maxAll maxAgent : Nat) :
    (∀ (st : LoopState) (flds : List (String × Json)), st.parse_error_seen = false →
      (st.all_messages_size + serLen (.obj flds) ≤ maxAll →
        (stepLine maxAll maxAgent st (.ok (.obj flds))).res.all_messages =
          st.res.all_messages ++ [flds] ∧
        (stepLine maxAll maxAgent st (.ok (.obj flds))).all_messages_size =
          st.all_messages_size + serLen (.obj flds) ∧
        (stepLine maxAll maxAgent st (.ok (.obj flds))).res.all_messages_truncated =
          st.res.all_messages_truncated) ∧
      (maxAll < st.all_messages_size + serLen (.obj flds) →
        (stepLine maxAll maxAgent st (.ok (.obj flds))).res.all_messages =
          st.res.all_messages ∧
        (stepLine maxAll maxAgent st (.ok (.obj flds))).all_messages_size =
          st.all_messages_size ∧
        (stepLine maxAll maxAgent st (.ok (.obj flds))).res.all_messages_truncated =
          true)) ∧
    (∀ (st : LoopState) (ev : LineEvent), ∃ tail,
      (stepLine maxAll maxAgent st ev).res.all_messages = st.res.all_messages ++ tail) ∧
    (∀ (st : LoopState) (ev : LineEvent), st.res.all_messages_truncated = true →
      (stepLine maxAll maxAgent st ev).res.all_messages_truncated = true) := by
  refine ⟨?_, stepLine_all_messages_mono maxAll maxAgent,
    stepLine_flag_mono maxAll maxAgent⟩
  intro st flds hseen
  have hstep : stepLine maxAll maxAgent st (.ok (.obj flds)) =
      { st with
        res := (processJson maxAll maxAgent st.all_messages_size st.res (.obj flds)).2
        all_messages_size :=
          (processJson maxAll maxAgent st.all_messages_size st.res (.obj flds)).1 } := by
    unfold stepLine
    dsimp only
    rw [hseen]
    rfl
  have hd := pjDispatch_preserves maxAgent
    (pjSession (pjCollect maxAll st.all_messages_size st.res (.obj flds)).2 (.obj flds))
    (.obj flds)
  have hs := pjSession_preserves
    (pjCollect maxAll st.all_messages_size st.res (.obj flds)).2 (.obj flds)
  have hmsg : (processJson maxAll maxAgent st.all_messages_size st.res (.obj flds)).2.all_messages
      = (pjCollect maxAll st.all_messages_size st.res (.obj flds)).2.all_messages := by
    show (pjDispatch maxAgent
      (pjSession (pjCollect maxAll st.all_messages_size st.res (.obj flds)).2 (.obj flds))
      (.obj flds)).all_messages = _
    rw [hd.2.1, hs.2.2.2.2.1]
  have hflag :
      (processJson maxAll maxAgent st.all_messages_size st.res (.obj flds)).2.all_messages_truncated
      = (pjCollect maxAll st.all_messages_size st.res (.obj flds)).2.all_messages_truncated := by
    show (pjDispatch maxAgent
      (pjSession (pjCollect maxAll st.all_messages_size st.res (.obj flds)).2 (.obj flds))
      (.obj flds)).all_messages_truncated = _
    rw [hd.2.2.1, hs.2.2.2.2.2.1]
  have hsize : (processJson maxAll maxAgent st.all_messages_size st.res (.obj flds)).1
      = (pjCollect maxAll st.all_messages_size st.res (.obj flds)).1 := rfl
  have hco := pjCollect_obj maxAll st.all_messages_size st.res flds
  constructor
  · intro hfits
    have hc := hco.1 hfits
    rw [hstep]
    dsimp only
    rw [hmsg, hflag, hsize, hc]
    exact ⟨rfl, rfl, rfl⟩
  · intro hover
    have hc := hco.2 hover
    rw [hstep]
    dsimp only
    rw [hmsg, hflag, hsize]
    exact ⟨hc.2.1, hc.1, hc.2.2⟩

/-- Witness for C1 amended: from the initial state, an empty object
event (serialized size 2) fits under ceiling 10 and is appended with
the flag left clear. -/
theorem C1_amended_witness :
    initState.parse_error_seen = false ∧
    initState.all_messages_size + serLen (.obj []) ≤ 10 ∧
    ((stepLine 10 100 initState (.ok (.obj []))).res.all_messages =
        initState.res.all_messages ++ [[]] ∧
      (stepLine 10 100 initState (.ok (.obj []))).all_messages_size =
        initState.all_messages_size + serLen (.obj []) ∧
      (stepLine 10 100 initState (.ok (.obj []))).res.all_messages_truncated =
        initState.res.all_messages_truncated) :=
  ⟨rfl, by decide,
    ((C1_amended_collection_behavior 10 100).1 initState [] rfl).1 (by decide)⟩

/-- C4: the line reader. (i) A line whose byte length (content plus
its newline byte when present) exceeds the cap is reported truncated;
(ii) the output buffer never grows beyond the cap; (iii) the stream
position after the read lies exactly at the first byte after the
first newline — bytes past the cap up to and including the newline
are consumed but not retained; (iv) a stream ending without a
trailing newline yields its trailing partial record (its first
`maxLen` bytes, a positive byte count), and reading the drained
remainder yields the zero-byte end-of-stream read. -/
theorem C4_line_reader (maxLen : Nat) (s : List Nat) :
    (maxLen < (s.takeWhile (fun b => b ≠ 10)).length +
        (if (10 : Nat) ∈ s then 1 else 0) →
      (read_line_with_limit maxLen s [] 0 false).2.2.1 = true) ∧
    (read_line_with_limit maxLen s [] 0 false).1.length ≤ maxLen ∧
    (read_line_with_limit maxLen s [] 0 false).2.2.2 =
      (if (10 : Nat) ∈ s then (s.dropWhile (fun b => b ≠ 10)).tail else []) ∧
    ((10 : Nat) ∉ s → s ≠ [] → 0 < maxLen →
      (read_line_with_limit maxLen s [] 0 false).1 = s.take maxLen ∧
      0 < (read_line_with_limit maxLen s [] 0 false).2.1 ∧
      read_line_with_limit maxLen [] [] 0 false = ([], 0, false, [])) := by
  refine ⟨?_, read_buf_le maxLen s [] 0 false (by simp),
    read_rest maxLen s [] 0 false, ?_⟩
  · intro h
    rw [read_trunc maxLen s [] 0 false (by simp)]
    simp only [List.length_nil, Nat.zero_add, Bool.false_or]
    exact decide_eq_true (by omega)
  · intro hnl hne hpos
    have hbuf := read_buf_no_nl maxLen s [] 0 hnl (by simp)
    simp only [List.length_nil, Nat.sub_zero, List.nil_append] at hbuf
    refine ⟨hbuf, ?_, rfl⟩
    have htot := read_total maxLen s [] 0 false
    simp only [List.length_nil, Nat.add_zero, Nat.zero_add] at htot
    rw [htot, hbuf, List.length_take]
    have hlen : 0 < s.length := List.length_pos.mpr hne
    omega

/-- Witness for C4: a 3-content-byte line against cap 2 is reported
truncated; a 2-byte stream without newline against cap 5 is retained
whole. -/
theorem C4_witness :
    (2 < (([65, 66, 67, 10, 68] : List Nat).takeWhile (fun b => b ≠ 10)).length +
        (if (10 : Nat) ∈ ([65, 66, 67, 10, 68] : List Nat) then 1 else 0) ∧
      (read_line_with_limit 2 [65, 66, 67, 10, 68] [] 0 false).2.2.1 = true) ∧
    ((10 : Nat) ∉ ([65, 66] : List Nat) ∧ ([65, 66] : List Nat) ≠ [] ∧ 0 < 5 ∧
      (read_line_with_limit 5 [65, 66] [] 0 false).1 = ([65, 66] : List Nat).take 5) :=
  ⟨⟨by decide, (C4_line_reader 2 [65, 66, 67, 10, 68]).1 (by decide)⟩,
    ⟨by decide, by decide, by decide,
      ((C4_line_reader 5 [65, 66]).2.2.2 (by decide) (by decide) (by decide)).1⟩⟩

/-- C10 counterexample: after a parse failure, a subsequent
over-length (truncated) line does NOT leave the accumulated state
unchanged — it overwrites the error with the line-overflow message
(the kill latch, however, is not re-triggered). -/
theorem C10_counterexample :
    (processLines MAX_ALL_MESSAGES_SIZE MAX_AGENT_MESSAGES_SIZE
        [.parseFail "x" "e"]).res.error = some "JSON parse error: e. Line: x" ∧
    (processLines MAX_ALL_MESSAGES_SIZE MAX_AGENT_MESSAGES_SIZE
        [.parseFail "x" "e", .truncatedLine]).res.error = some truncationErrorMsg ∧
    (some "JSON parse error: e. Line: x" : Option String) ≠ some truncationErrorMsg ∧
    (processLines MAX_ALL_MESSAGES_SIZE MAX_AGENT_MESSAGES_SIZE
        [.parseFail "x" "e", .truncatedLine]).kills = 1 :=
  ⟨rfl, rfl, by decide, rfl⟩

/-- C10 amended: the first stdout line that fails JSON decoding
records a diagnostic, marks the run failed, latches the parse-error
flag and sends exactly one kill signal; thereafter every complete
line (parseable, unparseable or empty) leaves the state unchanged,
but an over-length line still overwrites the error with the overflow
message (without killing again). -/
theorem C10_amended_parse_error_behavior (maxAll maxAgent : Nat) (st : LoopState)
    (j : Json) (l m : String) :
    (st.parse_error_seen = false →
      stepLine maxAll maxAgent st (.parseFail l m) =
        { st with
          res := record_parse_error st.res m l
          parse_error_seen := true
          kills := st.kills + 1 } ∧
      (record_parse_error st.res m l).success = false ∧
      (record_parse_error st.res m l).error.isSome = true) ∧
    (st.parse_error_seen = true →
      stepLine maxAll maxAgent st (.ok j) = st ∧
      stepLine maxAll maxAgent st (.parseFail l m) = st ∧
      stepLine maxAll maxAgent st .emptyLine = st ∧
      stepLine maxAll maxAgent st .truncatedLine =
        { st with
          res := { st.res with success := false, error := some truncationErrorMsg } }) := by
  constructor
  · intro h
    refine ⟨by simp [stepLine, h], rfl, ?_⟩
    unfold record_parse_error
    rcases hre : st.res.error with _ | e
    · rfl
    · dsimp only
      split_ifs <;> rfl
  · intro h
    refine ⟨?_, ?_, rfl, ?_⟩ <;> simp [stepLine, h]

/-- Witness for C10 amended: from the initial state a parse failure
latches and kills once; from a latched state a parseable line is a
no-op. -/
theorem C10_amended_witness :
    initState.parse_error_seen = false ∧
    stepLine MAX_ALL_MESSAGES_SIZE MAX_AGENT_MESSAGES_SIZE initState (.parseFail "x" "e") =
      { initState with
        res := record_parse_error initState.res "e" "x"
        parse_error_seen := true
        kills := initState.kills + 1 } ∧
    ({ initState with parse_error_seen := true } : LoopState).parse_error_seen = true ∧
    stepLine MAX_ALL_MESSAGES_SIZE MAX_AGENT_MESSAGES_SIZE
        { initState with parse_error_seen := true } (.ok Json.null) =
      { initState with parse_error_seen := true } :=
  ⟨rfl,
    ((C10_amended_parse_error_behavior MAX_ALL_MESSAGES_SIZE MAX_AGENT_MESSAGES_SIZE
      initState Json.null "x" "e").1 rfl).1,
    rfl,
    ((C10_amended_parse_error_behavior MAX_ALL_MESSAGES_SIZE MAX_AGENT_MESSAGES_SIZE
      { initState with parse_error_seen := true } Json.null "x" "e").2 rfl).1⟩

end ClaudeMcp
